import Mathlib

/-!
Verification of `main.py` of the repository `akolina/sia-os-referencias`:
a linear fetch → dedup → render → publish pipeline.

The Python code is shallowly embedded:

* JSON values (`Json`) model Python objects decoded from `response.json()`;
  Python `None` is `Json.null`.
* Python dictionary access is modelled exactly: `pyGet` is `d.get(k, default)`
  (never raises on a dict, raises `AttributeError` on a non-dict) and `pySub`
  is `d[k]` (raises `KeyError` on a missing key, `TypeError` on a non-dict).
  Fallible Python code is embedded in `Except String`.
* An HTTP interaction is a value of `HttpResponse`: either a transport
  exception, or a status code together with the decoded body (`none` when
  `response.json()` fails to parse).
* The network clients `buscar_openalex` / `buscar_doaj` become functions from
  the query-irrelevant response to the list of produced records; their
  `try/except` boundary is the `Except.error → []` collapse.
* The aggregator and renderer work on the normalized `Record` of the data
  model (all seven keys present, `title` a string); `year` and `citations`
  carry the string rendering that the f-string interpolation would produce.
-/

/-- A decoded JSON value, as produced by Python's `response.json()`.
`null` also stands for Python `None`. -/
inductive Json where
  | null
  | bool (b : Bool)
  | num (n : Int)
  | str (s : String)
  | arr (elems : List Json)
  | obj (fields : List (String × Json))

/-- Key lookup in a JSON object's field list (first binding wins). -/
def Json.lookupField : List (String × Json) → String → Option Json
  | [], _ => none
  | (k, v) :: fs, key => if k = key then some v else lookupField fs key

/-- Python `d.get(key, default)`: the stored value (even `None`) when the key
is present, `default` when absent; `AttributeError` when `d` is not a dict. -/
def pyGet (j : Json) (key : String) (dflt : Json) : Except String Json :=
  match j with
  | .obj fs =>
    match Json.lookupField fs key with
    | some v => .ok v
    | none => .ok dflt
  | _ => .error "AttributeError"

/-- Python `d[key]`: `KeyError` when the key is absent, `TypeError` when `d`
is not a dict. -/
def pySub (j : Json) (key : String) : Except String Json :=
  match j with
  | .obj fs =>
    match Json.lookupField fs key with
    | some v => .ok v
    | none => .error "KeyError"
  | _ => .error "TypeError"

/-- Python sequence coercion for `for … in xs` / slicing: a list yields its
elements, anything else raises `TypeError`. -/
def Json.asList : Json → Except String (List Json)
  | .arr xs => .ok xs
  | _ => .error "TypeError"

/-- Python truthiness of a decoded JSON value (`None`, `False`, `0`, `""`,
`[]`, `{}` are falsy). -/
def Json.truthy : Json → Bool
  | .null => false
  | .bool b => b
  | .num n => n != 0
  | .str s => s != ""
  | .arr [] => false
  | .arr (_ :: _) => true
  | .obj [] => false
  | .obj (_ :: _) => true

/-- Python's short-circuiting `x or y` over a decoded JSON value in an
effectful position: the value itself when truthy, otherwise the fallback. -/
def pyOr (v : Json) (fallback : Except String Json) : Except String Json :=
  if v.truthy then pure v else fallback

/-- A Python `for` loop (or comprehension) that computes `f x` for each
element in order and collects the results, aborting at the first raised
exception — the shape of both clients' result loops. -/
def collectExcept (f : α → Except String β) : List α → Except String (List β)
  | [] => .ok []
  | x :: xs => do
    let y ← f x
    let ys ← collectExcept f xs
    pure (y :: ys)

/-- The raw record dictionary built by a source client, before any
normalization: each value is whatever JSON value the extraction stored. -/
structure RawPaper where
  title : Json
  authors : List Json
  year : Json
  journal : Json
  citations : Json
  abstract : Json
  url : Json

/-- Embeds `buscar_openalex`, body of the `for item in data.get("results", [])` loop
(main.py lines 42-50): builds one record dictionary from one OpenAlex item.
Note line 44 uses bracket access `author["author"]["display_name"]` inside the
comprehension, not `.get`. -/
def openalexItem (item : Json) : Except String RawPaper := do
  let title ← pyGet item "title" (.str "Sin título")
  let authorships ← pyGet item "authorships" (.arr [])
  let authorships ← authorships.asList
  let authors ← collectExcept (fun a => do
    let inner ← pySub a "author"
    pySub inner "display_name") (authorships.take 4)
  let year ← pyGet item "publication_year" .null
  let loc ← pyGet item "primary_location" (.obj [])
  let src ← pyGet loc "source" (.obj [])
  let journal ← pyGet src "display_name" (.str "Sin revista")
  let citations ← pyGet item "cited_count" (.num 0)
  let abstract ← pyGet item "abstract" (.str "No disponible")
  let loc2 ← pyGet item "primary_location" (.obj [])
  let landing ← pyGet loc2 "landing_page_url" .null
  let url ← pyOr landing (pyGet item "doi" (.str "#"))
  pure { title, authors, year, journal, citations, abstract, url }

/-- Embeds `buscar_openalex`, lines 39-52: on a parsed 200 body, iterate over
`data.get("results", [])` building records. -/
def openalexExtract (body : Json) : Except String (List RawPaper) := do
  let results ← pyGet body "results" (.arr [])
  let results ← results.asList
  collectExcept openalexItem results

/-- One HTTP interaction as seen by a client: a transport exception, or a
status code with the decoded JSON body (`none` when `response.json()`
raises a parse error). -/
inductive HttpResponse where
  | exn
  | resp (status : Nat) (body : Option Json)

/-- Embeds `buscar_openalex(query, limit)` (main.py lines 24-58) as a function of the
HTTP response. `limit` is only sent as the `per_page` request parameter; the
200-branch processes every item of the body. The surrounding
`try/except Exception` turns any raised error into `[]`, and every non-200
status returns `[]`. -/
def buscar_openalex (_limit : Nat) (r : HttpResponse) : List RawPaper :=
  match r with
  | .exn => []
  | .resp status body =>
    if status = 200 then
      match body with
      | none => []                 -- response.json() raised; caught by except
      | some data =>
        match openalexExtract data with
        | .ok results => results
        | .error _ => []           -- extraction raised; caught by except
    else []

/-- Embeds `buscar_doaj`, the `next((l for l in links if l.get("type") == "fulltext"), {})`
expression (main.py line 79). -/
def doajFindFulltext : List Json → Except String Json
  | [] => .ok (.obj [])
  | l :: ls => do
    let t ← pyGet l "type" .null
    -- Python `l.get("type") == "fulltext"`: true only for the equal string
    match t with
    | .str s => if s = "fulltext" then pure l else doajFindFulltext ls
    | _ => doajFindFulltext ls

/-- Embeds `buscar_doaj`, body of the `for item in data.get("results", [])[:limit]`
loop (main.py lines 78-88): builds one record dictionary from one DOAJ item,
using `.get` with a default at every level. -/
def doajItem (item : Json) : Except String RawPaper := do
  let bibjson ← pyGet item "bibjson" (.obj [])
  let links ← pyGet item "links" (.arr [])
  let links ← links.asList
  let link ← doajFindFulltext links
  let title ← pyGet bibjson "title" (.str "Sin título")
  let authorsJ ← pyGet bibjson "author" (.arr [])
  let authorsJ ← authorsJ.asList
  let authors ← collectExcept (fun a => pyGet a "name" (.str "Anónimo")) (authorsJ.take 4)
  let year ← pyGet bibjson "year" (.str "N/A")
  let journalObj ← pyGet bibjson "journal" (.obj [])
  let journal ← pyGet journalObj "title" (.str "Revista desconocida")
  let abstract ← pyGet bibjson "abstract" (.str "No disponible")
  let url ← pyGet link "url" (.str "#")
  pure { title, authors, year, journal, citations := .str "N/A", abstract, url }

/-- Embeds `buscar_doaj`, lines 75-90: on a parsed 200 body, iterate over
`data.get("results", [])[:limit]` building records. -/
def doajExtract (limit : Nat) (body : Json) : Except String (List RawPaper) := do
  let results ← pyGet body "results" (.arr [])
  let results ← results.asList
  collectExcept doajItem (results.take limit)

/-- Embeds `buscar_doaj(query, limit)` (main.py lines 60-96) as a function of the
HTTP response, with the same `try/except` collapse as `buscar_openalex`. -/
def buscar_doaj (limit : Nat) (r : HttpResponse) : List RawPaper :=
  match r with
  | .exn => []
  | .resp status body =>
    if status = 200 then
      match body with
      | none => []
      | some data =>
        match doajExtract limit data with
        | .ok results => results
        | .error _ => []
    else []

/-- Embeds `actualizar_wiki_redmine(contenido)` (main.py lines 161-192) as a function
of the one PUT response. The result is the returned boolean paired with the
number of HTTP PUT requests the call issued (the straight-line body issues
exactly one `requests.put`, in every path). `contenido` only feeds the request
payload. -/
def actualizar_wiki_redmine (_contenido : String) (r : HttpResponse) : Bool × Nat :=
  match r with
  | .exn => (false, 1)
  | .resp status _ => (status == 200 || status == 201, 1)

/-- The normalized Record of the data model (§3 of the spec): the record
dictionaries flowing into the aggregator and the renderer, with all seven
keys present and `title` a string. `year` and `citations` hold the string
that Python's f-string interpolation would display for the stored value
(e.g. `"2021"`, `"None"`, `"N/A"`); `abstract` is `none` when the stored
value is Python `None`. -/
structure Record where
  title : String
  authors : List String
  year : String
  journal : String
  citations : String
  abstract : Option String
  url : String

/-- Python `str.lower()` on a title, as used for the deduplication key
(main.py line 110). -/
def pyLower (s : String) : String := s.toLower

/-- Embeds `combinar_resultados`, the dedup loop (main.py lines 107-113): walk the
concatenated list keeping a `seen` set of lowered titles, appending a record
only when its lowered title is unseen. The Python `set` is modelled as the
list of its elements (only membership is used). -/
def dedupLoop (seen : List String) : List Record → List Record
  | [] => []
  | p :: ps =>
    if pyLower p.title ∈ seen then dedupLoop seen ps
    else p :: dedupLoop (pyLower p.title :: seen) ps

/-- Embeds `combinar_resultados(query, limit_openalex, limit_doaj)` (main.py lines
98-115), as a function of the two already-fetched result sequences: the
OpenAlex records concatenated with the DOAJ records, then deduplicated by
first-seen lowered title. -/
def combinar_resultados (openalexRes doajRes : List Record) : List Record :=
  dedupLoop [] (openalexRes ++ doajRes)

/-- The aggregator contract as the spec words it (§4.2): keep a record
exactly when it is the first of the sequence bearing its case-insensitive
title; recursively, keep the head and drop every later record whose lowered
title matches it. -/
def specDedup : List Record → List Record
  | [] => []
  | p :: ps =>
    p :: specDedup (ps.filter fun q => ¬(pyLower q.title = pyLower p.title))
termination_by l => l.length
decreasing_by
  simp only [List.length_cons]
  exact Nat.lt_succ_of_le (List.length_filter_le _ _)

/-- The fixed document header of `formatear_papers_markdown` (main.py lines
122-130), with `hoy` the `datetime.now().strftime("%d/%m/%Y %H:%M")` string. -/
def mdHeader (hoy : String) : String :=
  "# Referencias Académicas - Transformación Digital del SIA\n\n> Actualizado el "
    ++ hoy
    ++ " (automático)\n\nArtículos científicos relevantes para el Sistema de Información Ambiental de Cuba.\n\n---\n\n"

/-- The fixed no-results notice (main.py line 132). -/
def mdNotice : String := "❌ No se encontraron artículos científicos recientes.\n"

/-- Main.py line 141: `(paper.get("abstract") or "No disponible")[:350] + "..."`.
The Python `or` substitutes the placeholder whenever the stored abstract is
falsy (absent/`None`, modelled as `none`, or the empty string); the slice
keeps the first 350 characters; the ellipsis is appended unconditionally. -/
def displayAbstract (a : Option String) : String :=
  (match a with
    | none => "No disponible"
    | some s => if s = "" then "No disponible" else s).take 350 ++ "..."

/-- Main.py lines 143-145: comma-join the authors, appending " et al." when
there are strictly more than 4. -/
def authorsLine (authors : List String) : String :=
  let joined := String.intercalate ", " authors
  if authors.length > 4 then joined ++ " et al." else joined

/-- The body of one record's subsection (main.py lines 148-158), everything
after the `### {i}. ` numbering. -/
def sectionBody (p : Record) : String :=
  p.title
    ++ "\n\n- **Autores:** " ++ authorsLine p.authors
    ++ "\n- **Año:** " ++ p.year ++ " | **Revista:** " ++ p.journal
    ++ "\n- **Citas:** " ++ p.citations
    ++ "\n- **Resumen:** " ++ displayAbstract p.abstract
    ++ "\n- [🔗 Ver artículo](" ++ p.url ++ ")\n\n---\n\n"

/-- One record's subsection (main.py lines 147-158): the f-string starts with
the newline ending line 147, then `### {i}. ` and the body. -/
def mdSection (i : Nat) (p : Record) : String :=
  "\n### " ++ toString i ++ ". " ++ sectionBody p

/-- The `for i, paper in enumerate(papers, 1)` loop (main.py lines 135-158):
concatenate the subsections, numbering from `i`. -/
def mdSections (i : Nat) : List Record → String
  | [] => ""
  | p :: ps => mdSection i p ++ mdSections (i + 1) ps

/-- Embeds `formatear_papers_markdown(papers)` (main.py lines 117-159) with the
`datetime.now()` clock reading passed in as `hoy`: header, then either the
no-results notice or the numbered subsections. -/
def formatear_papers_markdown (hoy : String) (papers : List Record) : String :=
  match papers with
  | [] => mdHeader hoy ++ mdNotice
  | _ :: _ => mdHeader hoy ++ mdSections 1 papers

/-- The ambient state `formatear_papers_markdown` could interact with: the
wall clock it reads via `datetime.now().strftime(...)` and the I/O trace
(lines printed / HTTP requests issued, as strings). -/
structure World where
  clock : String
  ioTrace : List String

/-- Embeds `formatear_papers_markdown` as the effectful procedure the interpreter
runs: it reads the clock (line 121) and builds the string; its body contains
no `print` and no network call, so the world is returned unchanged. -/
def formatearRun (w : World) (papers : List Record) : String × World :=
  (formatear_papers_markdown w.clock papers, w)

/-- The displayed abstract as the spec claim words it: the placeholder is
substituted only when the abstract is absent; then the first 350 characters
are kept and the ellipsis appended. (Spec-side definition, to be compared
with the code's `displayAbstract`.) -/
def specAbstract (a : Option String) : String :=
  (match a with
    | none => "No disponible"
    | some s => s).take 350 ++ "..."

/-- The displayed abstract as amended: the placeholder is substituted when
the abstract is absent or empty (Python falsiness); then the first 350
characters are kept and the ellipsis appended unconditionally. -/
def specAbstractAmended (a : Option String) : String :=
  (if a = none ∨ a = some "" then "No disponible" else a.getD "").take 350 ++ "..."

/-- Holds when `pat` occurs as a contiguous substring of `s`. -/
def containsStr (s pat : String) : Prop :=
  ∃ l r, s.data = l ++ pat.data ++ r

/-- Holds when `s` ends with the suffix `suf`. -/
def strEndsWith (s suf : String) : Prop :=
  suf.data <:+ s.data

/-- A sequence of Markdown subsections numbered consecutively from `i`,
each opening with the `\n### {number}. ` marker followed by its body. -/
def numberedBlocks (i : Nat) : List String → String
  | [] => ""
  | b :: bs => "\n### " ++ toString i ++ ". " ++ b ++ numberedBlocks (i + 1) bs

/-- Every character `Nat.digitChar` can produce, in no particular order. -/
def digitChars : List Char :=
  ['*', 'f', 'e', 'd', 'c', 'b', 'a', '9', '8', '7', '6', '5', '4', '3', '2', '1', '0']

/-! Section General lemmas about the embedded effect plumbing -/

theorem exBind_eq_ok {α β : Type} {x : Except String α} {f : α → Except String β} {y : β} :
    x >>= f = .ok y ↔ ∃ a, x = .ok a ∧ f a = .ok y := by
  cases x <;> simp [Bind.bind, Except.bind]

theorem collectExcept_ok_length {α β : Type} {f : α → Except String β} :
    ∀ {l : List α} {ys : List β}, collectExcept f l = .ok ys → ys.length = l.length := by
  intro l
  induction l with
  | nil =>
    intro ys h
    simp only [collectExcept] at h
    cases h
    rfl
  | cons x xs ih =>
    intro ys h
    simp only [collectExcept, exBind_eq_ok, pure, Except.pure] at h
    obtain ⟨y, _, ys', hys', hcons⟩ := h
    cases hcons
    simp [ih hys']

theorem collectExcept_ok_mem {α β : Type} {f : α → Except String β} :
    ∀ {l : List α} {ys : List β}, collectExcept f l = .ok ys →
      ∀ y ∈ ys, ∃ x ∈ l, f x = .ok y := by
  intro l
  induction l with
  | nil =>
    intro ys h
    simp only [collectExcept] at h
    cases h
    intro y hy
    cases hy
  | cons x xs ih =>
    intro ys h
    simp only [collectExcept, exBind_eq_ok, pure, Except.pure] at h
    obtain ⟨y, hy, ys', hys', hcons⟩ := h
    cases hcons
    intro z hz
    rcases List.mem_cons.mp hz with rfl | hz'
    · exact ⟨x, List.mem_cons_self .., hy⟩
    · obtain ⟨x', hx', hfx'⟩ := ih hys' z hz'
      exact ⟨x', List.mem_cons_of_mem _ hx', hfx'⟩

/-! Section C2: tolerance of missing nested JSON keys -/

/-- Claim C2: The claim fails on `buscar_openalex`: line 44 accesses
`author["author"]["display_name"]` with bracket subscription, so an HTTP 200
body whose authorship entry lacks the `"author"` key raises `KeyError` during
record construction instead of using a per-field default. The exception is
caught only at the client boundary, collapsing the whole batch to `[]`. -/
theorem openalex_missing_author_key_raises :
    openalexItem (Json.obj [("authorships", Json.arr [Json.obj []])])
      = .error "KeyError"
    ∧ buscar_openalex 3 (.resp 200 (some (Json.obj
        [("results", Json.arr [Json.obj [("authorships", Json.arr [Json.obj []])]])])))
      = [] :=
  ⟨rfl, rfl⟩

/-! Section C3: at most `limit` records per client -/

/-- Claim C3; counterexample: `buscar_openalex` has no client-side truncation:
with `limit = 1` and a 200 body whose `results` array holds two items, it
returns two records, so "at most `limit` records regardless of how many items
the response body contains" is false. -/
theorem openalex_exceeds_limit :
    ¬ ((buscar_openalex 1 (.resp 200 (some (Json.obj
        [("results", Json.arr [Json.obj [], Json.obj []])])))).length ≤ 1) := by
  decide

/-- Claim C3; amended: `buscar_doaj` returns at most `limit` records; but
`buscar_openalex` ignores `limit` entirely after issuing the request (it is
only the `per_page` request parameter): its output is independent of `limit`,
and on a successfully extracted 200 body it returns exactly one record per
item of the body's `results` array. -/
theorem clients_limit_behavior (limit limit' : Nat) (r : HttpResponse) :
    buscar_openalex limit r = buscar_openalex limit' r
    ∧ (buscar_doaj limit r).length ≤ limit
    ∧ (∀ items rs, collectExcept openalexItem items = .ok rs → rs.length = items.length)
    ∧ (∀ data rs, openalexExtract data = .ok rs →
        buscar_openalex limit (.resp 200 (some data)) = rs) := by
  refine ⟨rfl, ?_, ?_, ?_⟩
  · cases r with
    | exn => exact Nat.zero_le _
    | resp status body =>
      by_cases h : status = 200
      · subst h
        cases body with
        | none => simp [buscar_doaj]
        | some data =>
          simp only [buscar_doaj, if_pos rfl]
          rcases hx : doajExtract limit data with e | rs
          · exact Nat.zero_le _
          · simp only [doajExtract, exBind_eq_ok] at hx
            obtain ⟨res, _, items, _, hcollect⟩ := hx
            calc rs.length = (items.take limit).length := collectExcept_ok_length hcollect
              _ ≤ limit := List.length_take_le _ _
      · simp [buscar_doaj, h]
  · intro items rs h
    exact collectExcept_ok_length h
  · intro data rs h
    simp [buscar_openalex, h]

/-- Witness for `clients_limit_behavior` at concrete inputs: a 200 OpenAlex
body with two empty items yields two default-filled records whatever the
limit, while DOAJ output length is bounded. -/
theorem clients_limit_behavior_witness :
    buscar_openalex 1 (.resp 200 (some (Json.obj
        [("results", Json.arr [Json.obj [], Json.obj []])])))
      = buscar_openalex 2 (.resp 200 (some (Json.obj
        [("results", Json.arr [Json.obj [], Json.obj []])])))
    ∧ (buscar_doaj 1 (.resp 200 (some (Json.obj
        [("results", Json.arr [Json.obj [], Json.obj []])])))).length ≤ 1
    ∧ (buscar_openalex 1 (.resp 200 (some (Json.obj
        [("results", Json.arr [Json.obj [], Json.obj []])]))))
      = [⟨.str "Sin título", [], .null, .str "Sin revista", .num 0, .str "No disponible", .str "#"⟩,
         ⟨.str "Sin título", [], .null, .str "Sin revista", .num 0, .str "No disponible", .str "#"⟩] :=
  ⟨(clients_limit_behavior 1 2 (.resp 200 (some (Json.obj
        [("results", Json.arr [Json.obj [], Json.obj []])])))).1,
   (clients_limit_behavior 1 1 (.resp 200 (some (Json.obj
        [("results", Json.arr [Json.obj [], Json.obj []])])))).2.1,
   (clients_limit_behavior 1 1 (.resp 200 (some (Json.obj
        [("results", Json.arr [Json.obj [], Json.obj []])])))).2.2.2
     (Json.obj [("results", Json.arr [Json.obj [], Json.obj []])]) _ rfl⟩

/-! Section C4: clients fail closed -/

/-- Claim C4: On any non-200 status, and on any transport or JSON-parse
exception, each client returns the empty sequence; the embedding is a total
function, reflecting that the `try/except Exception` boundary lets no
exception escape. -/
theorem clients_fail_closed (limit status : Nat) (body : Option Json)
    (h : status ≠ 200) :
    buscar_openalex limit (.resp status body) = []
    ∧ buscar_doaj limit (.resp status body) = []
    ∧ buscar_openalex limit .exn = []
    ∧ buscar_doaj limit .exn = []
    ∧ buscar_openalex limit (.resp 200 none) = []
    ∧ buscar_doaj limit (.resp 200 none) = [] := by
  refine ⟨?_, ?_, rfl, rfl, rfl, rfl⟩ <;> simp [buscar_openalex, buscar_doaj, h]

/-- Witness for `clients_fail_closed`: an HTTP 404 with unparsed body. -/
theorem clients_fail_closed_witness :
    buscar_openalex 3 (.resp 404 none) = []
    ∧ buscar_doaj 3 (.resp 404 none) = [] :=
  ⟨(clients_fail_closed 3 404 none (by decide)).1,
   (clients_fail_closed 3 404 none (by decide)).2.1⟩

/-! Section C5: publisher success iff 200/201, one PUT, no raise -/

/-- Claim C5: `actualizar_wiki_redmine` returns `true` exactly when the PUT
response carries status 200 or 201; every other status and the transport
exception yield `false`; and every path issues exactly one PUT request
(second component). The embedding is total: no exception escapes. -/
theorem publisher_success_iff_200_201 (contenido : String) (r : HttpResponse) :
    (actualizar_wiki_redmine contenido r).2 = 1
    ∧ ((actualizar_wiki_redmine contenido r).1 = true
        ↔ ∃ s b, r = .resp s b ∧ (s = 200 ∨ s = 201)) := by
  cases r with
  | exn => simp [actualizar_wiki_redmine]
  | resp s b =>
    refine ⟨rfl, ?_⟩
    simp only [actualizar_wiki_redmine, Bool.or_eq_true, beq_iff_eq,
      HttpResponse.resp.injEq]
    constructor
    · intro h
      exact ⟨s, b, ⟨rfl, rfl⟩, h⟩
    · rintro ⟨s', b', ⟨rfl, rfl⟩, h⟩
      exact h

/-! Section C1: aggregator deduplication -/

theorem dedupLoop_filter_seen (l : List Record) :
    ∀ seen, dedupLoop seen l
      = specDedup (l.filter fun p => decide (pyLower p.title ∉ seen)) := by
  induction l with
  | nil => intro seen; simp [dedupLoop, specDedup]
  | cons p ps ih =>
    intro seen
    by_cases h : pyLower p.title ∈ seen
    · have hf : (p :: ps).filter (fun q => decide (pyLower q.title ∉ seen))
          = ps.filter (fun q => decide (pyLower q.title ∉ seen)) := by
        simp [List.filter_cons, h]
      rw [hf]
      simp only [dedupLoop, if_pos h]
      exact ih seen
    · have hf : (p :: ps).filter (fun q => decide (pyLower q.title ∉ seen))
          = p :: ps.filter (fun q => decide (pyLower q.title ∉ seen)) := by
        simp [List.filter_cons, h]
      rw [hf]
      simp only [dedupLoop, if_neg h]
      rw [specDedup, List.filter_filter, ih (pyLower p.title :: seen)]
      congr 1
      refine congrArg specDedup (List.filter_congr ?_)
      intro q _
      by_cases h1 : pyLower q.title = pyLower p.title <;>
        by_cases h2 : pyLower q.title ∈ seen <;>
          simp [List.mem_cons, h1, h2]

theorem dedupLoop_sublist : ∀ (l : List Record) (seen), (dedupLoop seen l).Sublist l := by
  intro l
  induction l with
  | nil => intro seen; simp [dedupLoop]
  | cons p ps ih =>
    intro seen
    by_cases h : pyLower p.title ∈ seen
    · simpa only [dedupLoop, if_pos h] using (ih seen).cons p
    · simpa only [dedupLoop, if_neg h] using (ih (pyLower p.title :: seen)).cons₂ p

theorem dedupLoop_keys (l : List Record) :
    ∀ seen, ((dedupLoop seen l).map fun p => pyLower p.title).Nodup
      ∧ ∀ p ∈ dedupLoop seen l, pyLower p.title ∉ seen := by
  induction l with
  | nil => intro seen; simp [dedupLoop]
  | cons p ps ih =>
    intro seen
    by_cases h : pyLower p.title ∈ seen
    · simpa only [dedupLoop, if_pos h] using ih seen
    · simp only [dedupLoop, if_neg h, List.map_cons, List.nodup_cons, List.mem_cons]
      refine ⟨⟨?_, (ih (pyLower p.title :: seen)).1⟩, ?_⟩
      · intro hmem
        obtain ⟨q, hq, hkey⟩ := List.mem_map.mp hmem
        exact (ih (pyLower p.title :: seen)).2 q hq (hkey ▸ List.mem_cons_self ..)
      · intro q hq
        rcases hq with rfl | hq
        · exact h
        · exact fun hin =>
            (ih (pyLower p.title :: seen)).2 q hq (List.mem_cons_of_mem _ hin)

theorem dedupLoop_covers (l : List Record) :
    ∀ seen p, p ∈ l → pyLower p.title ∉ seen →
      ∃ q ∈ dedupLoop seen l, pyLower q.title = pyLower p.title := by
  induction l with
  | nil => intro seen p hp; cases hp
  | cons x xs ih =>
    intro seen p hp hnot
    by_cases h : pyLower x.title ∈ seen
    · rcases List.mem_cons.mp hp with rfl | hp'
      · exact absurd h hnot
      · simpa only [dedupLoop, if_pos h] using ih seen p hp' hnot
    · rcases List.mem_cons.mp hp with rfl | hp'
      · exact ⟨p, by simp [dedupLoop, if_neg h], rfl⟩
      · by_cases hk : pyLower p.title = pyLower x.title
        · exact ⟨x, by simp [dedupLoop, if_neg h], hk.symm⟩
        · obtain ⟨q, hq, hqk⟩ := ih (pyLower x.title :: seen) p hp'
            (by simp only [List.mem_cons]; exact fun hc => hc.elim hk hnot)
          exact ⟨q, by simp only [dedupLoop, if_neg h, List.mem_cons]; exact Or.inr hq, hqk⟩

/-- Claim C1: The aggregator's dedup step: for every pair of input record
sequences, the result equals the spec's first-seen-per-lowered-title filter of
the concatenation in source-priority order (`specDedup`), it is a sublist of
the concatenation (relative order preserved), its lowered titles are pairwise
distinct (of any case-insensitively equal pair only one record survives —
`specDedup` keeps the first encountered), and every input title is still
represented. -/
theorem combinar_resultados_dedup_spec (xs ys : List Record) :
    combinar_resultados xs ys = specDedup (xs ++ ys)
    ∧ (combinar_resultados xs ys).Sublist (xs ++ ys)
    ∧ ((combinar_resultados xs ys).map fun p => pyLower p.title).Nodup
    ∧ ∀ p ∈ xs ++ ys, ∃ q ∈ combinar_resultados xs ys,
        pyLower q.title = pyLower p.title := by
  refine ⟨?_, dedupLoop_sublist _ _, (dedupLoop_keys _ []).1, ?_⟩
  · have h := dedupLoop_filter_seen (xs ++ ys) []
    simpa [combinar_resultados] using h
  · intro p hp
    exact dedupLoop_covers _ [] p hp (by simp)

/-- Witness for `combinar_resultados_dedup_spec` on the spec's end-to-end
scenario: OpenAlex yields two case-variant titles, DOAJ one further title. -/
theorem combinar_resultados_dedup_spec_witness :
    (combinar_resultados
        [⟨"Digital Transformation in Public Sector", [], "2021", "J1", "0", none, "#"⟩,
         ⟨"digital transformation in public sector", [], "2020", "J2", "0", none, "#"⟩]
        [⟨"Open Data Sustainability", [], "2022", "J3", "0", none, "#"⟩]).Sublist
      ([⟨"Digital Transformation in Public Sector", [], "2021", "J1", "0", none, "#"⟩,
        ⟨"digital transformation in public sector", [], "2020", "J2", "0", none, "#"⟩]
        ++ [⟨"Open Data Sustainability", [], "2022", "J3", "0", none, "#"⟩])
    ∧ ∃ q ∈ combinar_resultados
        [⟨"Digital Transformation in Public Sector", [], "2021", "J1", "0", none, "#"⟩,
         ⟨"digital transformation in public sector", [], "2020", "J2", "0", none, "#"⟩]
        [⟨"Open Data Sustainability", [], "2022", "J3", "0", none, "#"⟩],
        pyLower q.title
          = pyLower (Record.mk "digital transformation in public sector" [] "2020" "J2" "0" none "#").title :=
  ⟨(combinar_resultados_dedup_spec _ _).2.1,
   (combinar_resultados_dedup_spec
      [⟨"Digital Transformation in Public Sector", [], "2021", "J1", "0", none, "#"⟩,
       ⟨"digital transformation in public sector", [], "2020", "J2", "0", none, "#"⟩]
      [⟨"Open Data Sustainability", [], "2022", "J3", "0", none, "#"⟩]).2.2.2
     ⟨"digital transformation in public sector", [], "2020", "J2", "0", none, "#"⟩
     (by simp)⟩

/-! Section C6: displayed abstract -/

/-- Claim C6; counterexample: The renderer substitutes the placeholder not only
when the abstract is absent but for any falsy value: on the present-but-empty
abstract `""` the code shows `"No disponible..."` while the claim's
first-350-then-ellipsis of the empty string would be `"..."`. -/
theorem displayAbstract_empty_differs_from_spec :
    ¬ (displayAbstract (some "") = specAbstract (some "")) := by
  intro h
  have hd : ("No disponible".take 350 ++ "...").data = ("".take 350 ++ "...").data :=
    congrArg String.data h
  rw [String.data_append, String.data_append, String.data_take, String.data_take,
    List.take_of_length_le (by decide)] at hd
  exact absurd hd (by decide)

/-- Claim C6; amended: The displayed abstract substitutes the fixed placeholder
when the abstract is absent *or empty* (Python falsiness of line 141's `or`),
then keeps the first 350 characters, then appends the ellipsis `"..."`
unconditionally — whether or not the text was longer than 350 characters. -/
theorem displayAbstract_amended (a : Option String) :
    displayAbstract a = specAbstractAmended a
    ∧ ∃ pre : List Char, pre.length ≤ 350
        ∧ (displayAbstract a).data = pre ++ "...".data := by
  constructor
  · rcases a with _ | s
    · rfl
    · by_cases h : s = "" <;>
        simp [displayAbstract, specAbstractAmended, h]
  · refine ⟨((match a with
      | none => "No disponible"
      | some s => if s = "" then "No disponible" else s) : String).take 350 |>.data, ?_, ?_⟩
    · rw [String.data_take]
      exact List.length_take_le _ _
    · simp only [displayAbstract, String.data_append]

/-! Section C7: the "et al." suffix -/

/-- Claim C7; counterexample: The claimed equivalence fails in the only-if
direction: a single author literally named `"A et al."` yields a rendered
author line ending in `"et al."` although the list has at most 4 elements. -/
theorem authorsLine_suffix_without_five_authors :
    strEndsWith (authorsLine ["A et al."]) "et al."
    ∧ (["A et al."] : List String).length ≤ 4 :=
  ⟨⟨"A ".data, by decide⟩, by decide⟩

/-- Claim C7; amended: With strictly more than 4 authors the rendered author
line is the comma-joined names with `" et al."` appended (hence ends with the
suffix); with 4 or fewer the suffix is **not appended** — the line is exactly
the comma-joined names (though such a line may still happen to end in
`"et al."` when an author's own name does). -/
theorem authorsLine_et_al (authors : List String) :
    (authors.length > 4 →
       authorsLine authors = String.intercalate ", " authors ++ " et al."
       ∧ strEndsWith (authorsLine authors) "et al.")
    ∧ (authors.length ≤ 4 → authorsLine authors = String.intercalate ", " authors) := by
  constructor
  · intro h
    have he : authorsLine authors = String.intercalate ", " authors ++ " et al." := by
      simp [authorsLine, h]
    refine ⟨he, ?_⟩
    rw [strEndsWith, he, String.data_append]
    refine ⟨(String.intercalate ", " authors).data ++ " ".data, ?_⟩
    rw [List.append_assoc]
    exact congrArg (fun t => (String.intercalate ", " authors).data ++ t) (by decide)
  · intro h
    simp [authorsLine, Nat.not_lt.mpr h]

/-- Witness for `authorsLine_et_al`: five authors take the suffix, one author
does not. -/
theorem authorsLine_et_al_witness :
    authorsLine ["a", "b", "c", "d", "e"]
      = String.intercalate ", " ["a", "b", "c", "d", "e"] ++ " et al."
    ∧ strEndsWith (authorsLine ["a", "b", "c", "d", "e"]) "et al."
    ∧ authorsLine ["a"] = String.intercalate ", " ["a"] :=
  ⟨((authorsLine_et_al ["a", "b", "c", "d", "e"]).1 (by decide)).1,
   ((authorsLine_et_al ["a", "b", "c", "d", "e"]).1 (by decide)).2,
   (authorsLine_et_al ["a"]).2 (by decide)⟩

/-! Section C9: the renderer is pure and deterministic -/

/-- Claim C9: Run in an ambient world, `formatear_papers_markdown` leaves the
world untouched (no I/O: nothing printed, no request issued) and its output
depends only on the record sequence and the clock value it reads on line 121:
two invocations with the same records and the same timestamp produce
identical Markdown strings. -/
theorem formatear_pure_deterministic (w₁ w₂ : World) (papers : List Record)
    (h : w₁.clock = w₂.clock) :
    (formatearRun w₁ papers).1 = (formatearRun w₂ papers).1
    ∧ (formatearRun w₁ papers).2 = w₁
    ∧ (formatearRun w₂ papers).2 = w₂ := by
  refine ⟨?_, rfl, rfl⟩
  simp [formatearRun, h]

/-- Witness for `formatear_pure_deterministic`: two worlds agreeing on the
clock but not on the I/O trace render identically, and are left unchanged. -/
theorem formatear_pure_deterministic_witness :
    (formatearRun ⟨"12/10/2025 10:00", ["previous log line"]⟩ []).1
      = (formatearRun ⟨"12/10/2025 10:00", []⟩ []).1
    ∧ (formatearRun ⟨"12/10/2025 10:00", ["previous log line"]⟩ []).2
      = ⟨"12/10/2025 10:00", ["previous log line"]⟩ :=
  ⟨(formatear_pure_deterministic ⟨"12/10/2025 10:00", ["previous log line"]⟩
      ⟨"12/10/2025 10:00", []⟩ [] rfl).1,
   (formatear_pure_deterministic ⟨"12/10/2025 10:00", ["previous log line"]⟩
      ⟨"12/10/2025 10:00", []⟩ [] rfl).2.1⟩

/-! Section C10: clients truncate authors to 4; renderer never adds the suffix -/

theorem openalexItem_authors_le (item : Json) (p : RawPaper)
    (h : openalexItem item = .ok p) : p.authors.length ≤ 4 := by
  simp only [openalexItem, exBind_eq_ok] at h
  obtain ⟨t, _, as1, _, as2, _, au, hau, y, _, l1, _, s1, _, j, _, c, _, ab, _,
    l2, _, la, _, u, _, hp⟩ := h
  have hp' : RawPaper.mk t au y j c ab u = p := by
    simpa [pure, Except.pure] using hp
  subst hp'
  calc (RawPaper.mk t au y j c ab u).authors.length
      = (as2.take 4).length := collectExcept_ok_length hau
    _ ≤ 4 := List.length_take_le _ _

theorem doajItem_authors_le (item : Json) (p : RawPaper)
    (h : doajItem item = .ok p) : p.authors.length ≤ 4 := by
  simp only [doajItem, exBind_eq_ok] at h
  obtain ⟨bj, _, lk1, _, lk2, _, lk, _, t, _, as1, _, as2, _, au, hau, y, _,
    jo, _, j, _, ab, _, u, _, hp⟩ := h
  have hp' : RawPaper.mk t au y j (.str "N/A") ab u = p := by
    simpa [pure, Except.pure] using hp
  subst hp'
  calc (RawPaper.mk t au y j (.str "N/A") ab u).authors.length
      = (as2.take 4).length := collectExcept_ok_length hau
    _ ≤ 4 := List.length_take_le _ _

theorem buscar_openalex_mem_item (limit : Nat) (r : HttpResponse) (p : RawPaper)
    (h : p ∈ buscar_openalex limit r) : ∃ item, openalexItem item = .ok p := by
  cases r with
  | exn => cases h
  | resp status body =>
    simp only [buscar_openalex] at h
    by_cases hs : status = 200
    · rw [if_pos hs] at h
      cases body with
      | none => cases h
      | some data =>
        rcases hx : openalexExtract data with e | rs
        · simp only [hx] at h; cases h
        · simp only [hx] at h
          simp only [openalexExtract, exBind_eq_ok] at hx
          obtain ⟨res, _, items, _, hcollect⟩ := hx
          obtain ⟨item, _, hitem⟩ := collectExcept_ok_mem hcollect p h
          exact ⟨item, hitem⟩
    · rw [if_neg hs] at h; cases h

theorem buscar_doaj_mem_item (limit : Nat) (r : HttpResponse) (p : RawPaper)
    (h : p ∈ buscar_doaj limit r) : ∃ item, doajItem item = .ok p := by
  cases r with
  | exn => cases h
  | resp status body =>
    simp only [buscar_doaj] at h
    by_cases hs : status = 200
    · rw [if_pos hs] at h
      cases body with
      | none => cases h
      | some data =>
        rcases hx : doajExtract limit data with e | rs
        · simp only [hx] at h; cases h
        · simp only [hx] at h
          simp only [doajExtract, exBind_eq_ok] at hx
          obtain ⟨res, _, items, _, hcollect⟩ := hx
          obtain ⟨item, _, hitem⟩ := collectExcept_ok_mem hcollect p h
          exact ⟨item, hitem⟩
    · rw [if_neg hs] at h; cases h

/-- Claim C10: Both clients slice authorships with `[:4]` before building the
record, so every record they can produce has at most 4 authors; and on any
author list of at most 4 names the renderer's `" et al."` branch is not
taken — the author line is exactly the comma-joined names. -/
theorem clients_authors_at_most_four (limit : Nat) (r : HttpResponse)
    (p : RawPaper) (names : List String) :
    (p ∈ buscar_openalex limit r → p.authors.length ≤ 4)
    ∧ (p ∈ buscar_doaj limit r → p.authors.length ≤ 4)
    ∧ (names.length ≤ 4 → authorsLine names = String.intercalate ", " names) := by
  refine ⟨?_, ?_, fun h => by simp [authorsLine, Nat.not_lt.mpr h]⟩
  · intro h
    obtain ⟨item, hitem⟩ := buscar_openalex_mem_item limit r p h
    exact openalexItem_authors_le item p hitem
  · intro h
    obtain ⟨item, hitem⟩ := buscar_doaj_mem_item limit r p h
    exact doajItem_authors_le item p hitem

/-- Witness for `clients_authors_at_most_four`: an OpenAlex item with six
authorships and a DOAJ item with five authors each yield a record with
exactly four authors; a one-name list takes no suffix. -/
theorem clients_authors_at_most_four_witness :
    (⟨.str "Sin título",
      [.str "A", .str "A", .str "A", .str "A"],
      .null, .str "Sin revista", .num 0, .str "No disponible", .str "#"⟩
        : RawPaper).authors.length ≤ 4
    ∧ (⟨.str "Sin título",
        [.str "B", .str "B", .str "B", .str "B"],
        .str "N/A", .str "Revista desconocida", .str "N/A", .str "No disponible", .str "#"⟩
          : RawPaper).authors.length ≤ 4
    ∧ authorsLine ["x"] = String.intercalate ", " ["x"] :=
  ⟨(clients_authors_at_most_four 3
      (.resp 200 (some (Json.obj [("results", Json.arr [Json.obj [("authorships", Json.arr
        [Json.obj [("author", Json.obj [("display_name", Json.str "A")])],
         Json.obj [("author", Json.obj [("display_name", Json.str "A")])],
         Json.obj [("author", Json.obj [("display_name", Json.str "A")])],
         Json.obj [("author", Json.obj [("display_name", Json.str "A")])],
         Json.obj [("author", Json.obj [("display_name", Json.str "A")])],
         Json.obj [("author", Json.obj [("display_name", Json.str "A")])]])]])])))
      ⟨.str "Sin título", [.str "A", .str "A", .str "A", .str "A"],
       .null, .str "Sin revista", .num 0, .str "No disponible", .str "#"⟩ ["x"]).1
    (List.mem_cons_self ..),
   (clients_authors_at_most_four 3
      (.resp 200 (some (Json.obj [("results", Json.arr [Json.obj [("bibjson", Json.obj
        [("author", Json.arr
          [Json.obj [("name", Json.str "B")], Json.obj [("name", Json.str "B")],
           Json.obj [("name", Json.str "B")], Json.obj [("name", Json.str "B")],
           Json.obj [("name", Json.str "B")]])])]])])))
      ⟨.str "Sin título", [.str "B", .str "B", .str "B", .str "B"],
       .str "N/A", .str "Revista desconocida", .str "N/A", .str "No disponible", .str "#"⟩
      ["x"]).2.1
    (List.mem_cons_self ..),
   (clients_authors_at_most_four 3 .exn
      ⟨.str "Sin título", [], .null, .str "Sin revista", .num 0, .str "No disponible", .str "#"⟩
      ["x"]).2.2 (by decide)⟩

/-! Section C8: document structure -/

theorem digitChar_mem_digitChars (n : Nat) : Nat.digitChar n ∈ digitChars := by
  rcases Nat.lt_or_ge n 16 with h | h
  · interval_cases n <;> decide
  · have h0 : ¬ n = 0 := by omega
    have h1 : ¬ n = 1 := by omega
    have h2 : ¬ n = 2 := by omega
    have h3 : ¬ n = 3 := by omega
    have h4 : ¬ n = 4 := by omega
    have h5 : ¬ n = 5 := by omega
    have h6 : ¬ n = 6 := by omega
    have h7 : ¬ n = 7 := by omega
    have h8 : ¬ n = 8 := by omega
    have h9 : ¬ n = 9 := by omega
    have h10 : ¬ n = 10 := by omega
    have h11 : ¬ n = 11 := by omega
    have h12 : ¬ n = 12 := by omega
    have h13 : ¬ n = 13 := by omega
    have h14 : ¬ n = 14 := by omega
    have h15 : ¬ n = 15 := by omega
    simp only [Nat.digitChar, if_neg h0, if_neg h1, if_neg h2, if_neg h3, if_neg h4,
      if_neg h5, if_neg h6, if_neg h7, if_neg h8, if_neg h9, if_neg h10, if_neg h11,
      if_neg h12, if_neg h13, if_neg h14, if_neg h15]
    decide

theorem toDigitsCore_mem (b : Nat) :
    ∀ (fuel n : Nat) (acc : List Char), (∀ c ∈ acc, c ∈ digitChars) →
      ∀ c ∈ Nat.toDigitsCore b fuel n acc, c ∈ digitChars := by
  intro fuel
  induction fuel with
  | zero =>
    intro n acc hacc c hc
    simpa only [Nat.toDigitsCore] using hacc c hc
  | succ f ih =>
    intro n acc hacc c hc
    simp only [Nat.toDigitsCore] at hc
    by_cases h : n / b = 0
    · rw [if_pos h] at hc
      rcases List.mem_cons.mp hc with rfl | hc'
      · exact digitChar_mem_digitChars _
      · exact hacc c hc'
    · rw [if_neg h] at hc
      refine ih (n / b) (Nat.digitChar (n % b) :: acc) ?_ c hc
      intro d hd
      rcases List.mem_cons.mp hd with rfl | hd'
      · exact digitChar_mem_digitChars _
      · exact hacc d hd'

theorem toString_nat_mem (i : Nat) : ∀ c ∈ (toString i).data, c ∈ digitChars := by
  intro c hc
  have h : (toString i).data = Nat.toDigits 10 i := rfl
  rw [h, Nat.toDigits] at hc
  exact toDigitsCore_mem 10 (i + 1) i [] (by intro d hd; cases hd) c hc

theorem containsStr_count_le (s pat : String) (c : Char) (h : containsStr s pat) :
    pat.data.count c ≤ s.data.count c := by
  obtain ⟨l, r, hs⟩ := h
  rw [hs, List.count_append, List.count_append]
  omega

theorem numberedBlocks_count_zero (c : Char) (hd : c ∉ digitChars)
    (h1 : c ∉ ("\n### " : String).data) (h2 : c ∉ (". " : String).data) :
    ∀ (bs : List String) (i : Nat), (∀ b ∈ bs, c ∉ b.data) →
      (numberedBlocks i bs).data.count c = 0 := by
  intro bs
  induction bs with
  | nil => intro i _; simp [numberedBlocks]
  | cons b bs ih =>
    intro i hb
    simp only [numberedBlocks, String.data_append, List.count_append]
    rw [List.count_eq_zero.mpr h1, List.count_eq_zero.mpr h2,
      List.count_eq_zero.mpr (fun hm => hd (toString_nat_mem i c hm)),
      List.count_eq_zero.mpr (hb b (List.mem_cons_self ..)),
      ih (i + 1) (fun b' hb' => hb b' (List.mem_cons_of_mem _ hb'))]

theorem mdSections_eq_numbered (papers : List Record) :
    ∀ i, mdSections i papers = numberedBlocks i (papers.map sectionBody) := by
  induction papers with
  | nil => intro i; rfl
  | cons p ps ih =>
    intro i
    simp only [mdSections, numberedBlocks, List.map_cons, mdSection, ih]

/-- Claim C8: Rendering the empty sequence yields exactly the fixed header
followed by the no-results notice — so the notice occurs in the document and
no `###` subsection marker does (given the timestamp contains no `#`, as the
`%d/%m/%Y %H:%M` format guarantees). Rendering `n` records yields the header
followed by exactly `n` subsections numbered consecutively from 1 in input
order, each opening `\n### {i}. ` before its record's body; and the
no-results notice does not occur (given no field renders the notice's `❌`
marker). -/
theorem renderer_document_structure (hoy : String) (papers : List Record) :
    (papers = [] →
       formatear_papers_markdown hoy papers = mdHeader hoy ++ mdNotice
       ∧ containsStr (formatear_papers_markdown hoy papers) mdNotice
       ∧ ('#' ∉ hoy.data → ¬ containsStr (formatear_papers_markdown hoy papers) "###"))
    ∧ (papers ≠ [] →
       formatear_papers_markdown hoy papers
         = mdHeader hoy ++ numberedBlocks 1 (papers.map sectionBody)
       ∧ ('❌' ∉ hoy.data → (∀ p ∈ papers, '❌' ∉ (sectionBody p).data) →
          ¬ containsStr (formatear_papers_markdown hoy papers) mdNotice)) := by
  constructor
  · intro h
    subst h
    refine ⟨rfl, ⟨(mdHeader hoy).data, [], ?_⟩, ?_⟩
    · show (mdHeader hoy ++ mdNotice).data = (mdHeader hoy).data ++ mdNotice.data ++ []
      rw [String.data_append, List.append_nil]
    · intro hh hcon
      have heq : formatear_papers_markdown hoy [] = mdHeader hoy ++ mdNotice := rfl
      rw [heq] at hcon
      have hle := containsStr_count_le _ _ '#' hcon
      have hdoc : (mdHeader hoy ++ mdNotice).data.count '#' = 1 := by
        simp only [mdHeader, String.data_append, List.count_append]
        rw [List.count_eq_zero.mpr hh]
        decide
      rw [hdoc] at hle
      have h3 : ("###" : String).data.count '#' = 3 := by decide
      rw [h3] at hle
      omega
  · intro hne
    obtain ⟨p, ps, rfl⟩ : ∃ p ps, papers = p :: ps := by
      cases papers with
      | nil => exact absurd rfl hne
      | cons a l => exact ⟨a, l, rfl⟩
    have heq : formatear_papers_markdown hoy (p :: ps)
        = mdHeader hoy ++ numberedBlocks 1 ((p :: ps).map sectionBody) := by
      simp only [formatear_papers_markdown]
      rw [mdSections_eq_numbered]
    refine ⟨heq, ?_⟩
    intro hhoy hfields hcon
    rw [heq] at hcon
    have hle := containsStr_count_le _ _ '❌' hcon
    have hnotice : mdNotice.data.count '❌' = 1 := by decide
    have hblocks : (numberedBlocks 1 ((p :: ps).map sectionBody)).data.count '❌' = 0 := by
      refine numberedBlocks_count_zero '❌' (by decide) (by decide) (by decide) _ 1 ?_
      intro b hb
      obtain ⟨q, hq, rfl⟩ := List.mem_map.mp hb
      exact hfields q hq
    have hhoy2 : hoy.data.count '❌' = 0 := List.count_eq_zero.mpr hhoy
    have hdoc : (mdHeader hoy ++ numberedBlocks 1 ((p :: ps).map sectionBody)).data.count '❌'
        = 0 := by
      simp only [mdHeader, String.data_append, List.count_append]
      rw [hhoy2, hblocks]
      decide
    rw [hnotice, hdoc] at hle
    omega

/-- Witness for `renderer_document_structure` at a fixed timestamp, the empty
sequence and a one-record sequence. -/
theorem renderer_document_structure_witness :
    formatear_papers_markdown "12/10/2025 10:00" []
      = mdHeader "12/10/2025 10:00" ++ mdNotice
    ∧ containsStr (formatear_papers_markdown "12/10/2025 10:00" []) mdNotice
    ∧ ¬ containsStr (formatear_papers_markdown "12/10/2025 10:00" []) "###"
    ∧ formatear_papers_markdown "12/10/2025 10:00" [⟨"T", ["A"], "2021", "J", "0", none, "u"⟩]
      = mdHeader "12/10/2025 10:00"
          ++ numberedBlocks 1 ([⟨"T", ["A"], "2021", "J", "0", none, "u"⟩].map sectionBody)
    ∧ ¬ containsStr
        (formatear_papers_markdown "12/10/2025 10:00" [⟨"T", ["A"], "2021", "J", "0", none, "u"⟩])
        mdNotice :=
  ⟨((renderer_document_structure "12/10/2025 10:00" []).1 rfl).1,
   ((renderer_document_structure "12/10/2025 10:00" []).1 rfl).2.1,
   ((renderer_document_structure "12/10/2025 10:00" []).1 rfl).2.2 (by decide),
   ((renderer_document_structure "12/10/2025 10:00"
      [⟨"T", ["A"], "2021", "J", "0", none, "u"⟩]).2 (by simp)).1,
   ((renderer_document_structure "12/10/2025 10:00"
      [⟨"T", ["A"], "2021", "J", "0", none, "u"⟩]).2 (by simp)).2 (by decide)
    (by
      intro p hp
      have hpr : p = ⟨"T", ["A"], "2021", "J", "0", none, "u"⟩ := List.mem_singleton.mp hp
      subst hpr
      have ht : ("No disponible" : String).take 350 = "No disponible" := by
        apply String.ext
        rw [String.data_take]
        exact List.take_of_length_le (by decide)
      have habs : displayAbstract none = "No disponible" ++ "..." := by
        show ("No disponible" : String).take 350 ++ "..." = "No disponible" ++ "..."
        rw [ht]
      intro hc
      rw [sectionBody, habs] at hc
      exact absurd hc (by decide))⟩
